import Mathlib

set_option maxHeartbeats 1000000

/-!
Shallow embedding of the PWMReceiver library (src/PWMReceiver.h, src/PWMReceiver.cpp)
and verification of its specification claims.

Modelling decisions, traceable to the source:

* `PINS_COUNT` is 16 (`#define PINS_COUNT 16`, PWMReceiver.h line 13).
* `unsigned long` on the Arduino targets is a 32-bit unsigned integer; we model
  its values as `Nat` reduced modulo `ULONG_MOD = 2^32` wherever the C code
  stores or computes an `unsigned long`.
* `_changedFlags` is a `uint16_t`; every store into it is reduced modulo
  `FLAGS_MOD = 2^16`, which is exactly the truncation the C store performs.
* Function pointers for filter and transform are modelled as Lean functions
  `Nat → Bool` and `Nat → Nat`.  The onChange callback slots are modelled as an
  inductive `Callback` value (either the library's `_void` no-op or a
  user-supplied callback identified by a tag); a `lookForChanges` call returns,
  alongside the new state, the list of `Invocation`s it performed, i.e. the
  calls `(*onChangeFunc)((*transformFunc)(currentValue))` in source order.
  This makes callback invocations observable without side effects.
* The ISR `_handleChange` (PWMReceiver.cpp lines 140-152) is modelled by
  `handleChangeS`, acting on the ISR-shared variables `_waveStarts`,
  `_currentValues`, `_changedFlags` (`Shared`).  The hardware delivers the pin
  and the level (`arduinoInterruptedPin` / `arduinoPinState`) and `micros()`;
  those are inputs of the model (`IsrEvent`).  Interrupts for a pin are
  delivered only while the pin is attached (`enableInterrupt` /
  `disableInterrupt`), which the machine-level `edge` function reflects.
* The critical section of `lookForChanges` (lines 107-118) is additionally
  modelled at instruction granularity in the `Snap` namespace, where ISR
  activations may interleave with the individual reads/writes of the snapshot
  and are masked (latched and delivered at the closing `interrupts()`) while
  interrupts are disabled, which is how the AVR interrupt controller behaves.
-/

/-- `#define PINS_COUNT 16` (PWMReceiver.h line 13). -/
abbrev PINS_COUNT : Nat := 16

/-- Modulus of the 32-bit `unsigned long` type (the type of `micros()`,
`_waveStarts` and `_currentValues`). -/
abbrev ULONG_MOD : Nat := 2 ^ 32

/-- Modulus of the 16-bit `uint16_t` type of `_changedFlags`. -/
abbrev FLAGS_MOD : Nat := 2 ^ 16

/-- The value stored in an `_onChangeFunctions` slot: either the library's
`_void` no-op (installed by `detach`) or a user-supplied callback, identified
by a tag so distinct user callbacks can be told apart. -/
inductive Callback where
  | void
  | user (tag : Nat)
deriving DecidableEq

/-- The variables shared with the ISR (PWMReceiver.cpp lines 39-43):
`_waveStarts`, `_currentValues`, and the `uint16_t` flag register
`_changedFlags`. -/
structure Shared where
  waveStarts : Fin PINS_COUNT → Nat
  currentValues : Fin PINS_COUNT → Nat
  changedFlags : Nat

/-- One hardware edge notification: the interrupted pin
(`arduinoInterruptedPin`), the new level (`arduinoPinState > 0`), and the value
`micros()` reads when the ISR runs. -/
structure IsrEvent where
  pin : Fin PINS_COUNT
  level : Bool
  time : Nat
deriving DecidableEq

/-- `PWMReceiver::_handleChange` (PWMReceiver.cpp lines 140-152), acting on the
ISR-shared variables.  Rising edge: `_waveStarts[pin] = micros()`.  Falling
edge: `_currentValues[pin] = micros() - _waveStarts[pin]` (32-bit unsigned
subtraction) and `_changedFlags |= 2 << pin` (the `|=` store truncates to
16 bits). -/
def handleChangeS (s : Shared) (e : IsrEvent) : Shared :=
  if e.level then
    { s with waveStarts := Function.update s.waveStarts e.pin (e.time % ULONG_MOD) }
  else
    { s with
      currentValues := Function.update s.currentValues e.pin
        ((e.time % ULONG_MOD + ULONG_MOD - s.waveStarts e.pin % ULONG_MOD) % ULONG_MOD),
      changedFlags := (s.changedFlags ||| (2 <<< e.pin.val)) % FLAGS_MOD }

namespace PWMReceiver

/-- `PWMReceiver::any` (lines 157-159): filter accepting every value. -/
def any (_ : Nat) : Bool := true

/-- `PWMReceiver::none` (lines 164-166): filter rejecting every value. -/
def none (_ : Nat) : Bool := false

/-- `PWMReceiver::identity` (lines 171-173): identity transform. -/
def identity (value : Nat) : Nat := value

end PWMReceiver

/-- The whole receiver state: the ISR-shared variables plus the per-pin
registries `_onChangeFunctions`, `_filterFunctions`, `_transformFunctions`
and the per-pin interrupt-enabled status maintained by
`enableInterrupt`/`disableInterrupt`. -/
structure MState where
  shared : Shared
  onChangeFuncs : Fin PINS_COUNT → Callback
  filterFuncs : Fin PINS_COUNT → Nat → Bool
  transformFuncs : Fin PINS_COUNT → Nat → Nat
  interruptEnabled : Fin PINS_COUNT → Bool

/-- `PWMReceiver::attach(pin, onChange, filter, transform)`
(PWMReceiver.cpp lines 77-82): enables the interrupt on the pin and installs
the triplet. -/
def attach3 (s : MState) (arduinoPin : Fin PINS_COUNT) (onChangeFunc : Callback)
    (filterFunc : Nat → Bool) (transformFunc : Nat → Nat) : MState :=
  { s with
    interruptEnabled := Function.update s.interruptEnabled arduinoPin true,
    onChangeFuncs := Function.update s.onChangeFuncs arduinoPin onChangeFunc,
    filterFuncs := Function.update s.filterFuncs arduinoPin filterFunc,
    transformFuncs := Function.update s.transformFuncs arduinoPin transformFunc }

/-- `PWMReceiver::attach(pin, onChange, filter)` (lines 65-67): delegates to
the full overload with the `identity` transform. -/
def attach2 (s : MState) (arduinoPin : Fin PINS_COUNT) (onChangeFunc : Callback)
    (filterFunc : Nat → Bool) : MState :=
  attach3 s arduinoPin onChangeFunc filterFunc PWMReceiver.identity

/-- `PWMReceiver::attach(pin, onChange)` (lines 53-55): delegates with the
`any` filter. -/
def attach1 (s : MState) (arduinoPin : Fin PINS_COUNT) (onChangeFunc : Callback) : MState :=
  attach2 s arduinoPin onChangeFunc PWMReceiver.any

/-- `PWMReceiver::detach(pin)` (lines 89-94): disables the interrupt and
resets the triplet to `_void` / `none` / `identity`. -/
def detach (s : MState) (arduinoPin : Fin PINS_COUNT) : MState :=
  { s with
    interruptEnabled := Function.update s.interruptEnabled arduinoPin false,
    onChangeFuncs := Function.update s.onChangeFuncs arduinoPin Callback.void,
    filterFuncs := Function.update s.filterFuncs arduinoPin PWMReceiver.none,
    transformFuncs := Function.update s.transformFuncs arduinoPin PWMReceiver.identity }

/-- Delivery of one hardware edge to the receiver: the ISR `_handleChange`
runs only while the pin's interrupt is enabled (EnableInterrupt delivers
nothing for a detached pin). -/
def edge (s : MState) (pin : Fin PINS_COUNT) (level : Bool) (time : Nat) : MState :=
  if s.interruptEnabled pin then
    { s with shared := handleChangeS s.shared ⟨pin, level, time⟩ }
  else s

/-- One observable callback call performed by `lookForChanges`: the pin it was
dispatched for, the callback slot value that was called, and the (transformed)
argument it received. -/
structure Invocation where
  pin : Fin PINS_COUNT
  callback : Callback
  value : Nat
deriving DecidableEq

/-- The body of the dispatch loop of `PWMReceiver::lookForChanges`
(lines 121-132) for a single pin, over the local copies `flags` and `values`:
if `flags & 2 << pin` is non-zero, evaluate the pin's filter on `values[pin]`
and, when it accepts, call the pin's onChange with the transformed value. -/
def dispatchPin (flags : Nat) (values : Fin PINS_COUNT → Nat) (s : MState)
    (pin : Fin PINS_COUNT) : List Invocation :=
  if flags &&& (2 <<< pin.val) ≠ 0 then
    if s.filterFuncs pin (values pin) then
      [⟨pin, s.onChangeFuncs pin, s.transformFuncs pin (values pin)⟩]
    else []
  else []

/-- `PWMReceiver::lookForChanges` (lines 103-134): if `_changedFlags` is
non-zero, snapshot `(flags, values)` and reset `_changedFlags` to 0 (the
critical section, lines 107-118; its interleaving with the ISR is analysed at
instruction granularity by the `Snap` model below — at machine level a poll is
one step), then run the dispatch loop over pins 0..15 in ascending order.
Returns the new state and the invocations performed, in order. -/
def lookForChanges (s : MState) : MState × List Invocation :=
  if s.shared.changedFlags ≠ 0 then
    ({ s with shared := { s.shared with changedFlags := 0 } },
      (List.finRange PINS_COUNT).flatMap
        (dispatchPin s.shared.changedFlags s.shared.currentValues s))
  else (s, [])

/-- External stimuli of the sequential machine: a hardware edge on a pin, or
one call of `lookForChanges` from the main loop. -/
inductive Ev where
  | edgeEv (pin : Fin PINS_COUNT) (level : Bool) (time : Nat)
  | pollEv
deriving DecidableEq

/-- One machine step, accumulating the performed invocations. -/
def machineStep (sl : MState × List Invocation) (e : Ev) : MState × List Invocation :=
  match e with
  | .edgeEv p l t => (edge sl.1 p l t, sl.2)
  | .pollEv =>
      let r := lookForChanges sl.1
      (r.1, sl.2 ++ r.2)

/-- Run a sequence of edges and polls from a state; yields the final state and
all invocations performed, in order. -/
def run (s : MState) (evs : List Ev) : MState × List Invocation :=
  evs.foldl machineStep (s, [])

/-- The program-start state: the static arrays are zero-initialised
(`_waveStarts`, `_currentValues`, `_changedFlags = 0`, line 43) and no
interrupt is enabled.  The zero-initialised function-pointer slots of a
never-attached pin are unreachable by dispatch (a pin only becomes dirty after
`enableInterrupt`, i.e. `attach`), so we may harmlessly place the `detach`
defaults in them. -/
def initState : MState where
  shared := { waveStarts := fun _ => 0, currentValues := fun _ => 0, changedFlags := 0 }
  onChangeFuncs := fun _ => Callback.void
  filterFuncs := fun _ => PWMReceiver.none
  transformFuncs := fun _ => PWMReceiver.identity
  interruptEnabled := fun _ => false

-- Scenario for claim C3: channel 3, filter `x > 1000`, identity transform.

/-- The filter `x > 1000` of the end-to-end scenario. -/
def c3Filter (x : Nat) : Bool := decide (1000 < x)

/-- State after `attach(3, store, x > 1000, identity)` with `store` modelled
as the user callback tagged 0. -/
def c3State : MState :=
  attach3 initState 3 (Callback.user 0) c3Filter PWMReceiver.identity

/-- First pulse of the scenario: rising at t=0, falling at t=500, then one
poll. -/
def c3EvsFirst : List Ev := [.edgeEv 3 true 0, .edgeEv 3 false 500, .pollEv]

/-- Both pulses: additionally rising at t=1000, falling at t=3000, then a
second poll. -/
def c3EvsAll : List Ev :=
  c3EvsFirst ++ [.edgeEv 3 true 1000, .edgeEv 3 false 3000, .pollEv]

-- Scenario for claim C2 at the failing input: channel 15.

/-- State after `attach(15, store, any, identity)`. -/
def c2State : MState :=
  attach3 initState 15 (Callback.user 0) PWMReceiver.any PWMReceiver.identity

/-- Two complete pulses on channel 15 (durations 100 and 300) followed by one
poll. -/
def c2Evs : List Ev :=
  [.edgeEv 15 true 0, .edgeEv 15 false 100,
   .edgeEv 15 true 200, .edgeEv 15 false 500, .pollEv]

/-- Scenario for claim C5 at the failing input: state after
`attach(15, store, any, identity)` and a rising edge at t=0. -/
def c5State : MState := edge c2State 15 true 0

-- Scenario used by the C4 witness.

/-- Channel 15 attached with the accept-all filter. -/
def c4State : MState :=
  attach3 initState 15 (Callback.user 7) PWMReceiver.any PWMReceiver.identity

/-- One complete pulse on channel 15 followed by a poll. -/
def c4Evs : List Ev := [.edgeEv 15 true 0, .edgeEv 15 false 400, .pollEv]

/-!
## Instruction-level model of the snapshot critical section

`PWMReceiver::lookForChanges`, lines 107-118: `noInterrupts()`, the read of
`_changedFlags` into the local `flags`, the `memcpy` of the 16 slots of
`_currentValues` into the local `values`, the store `_changedFlags = 0`, and
`interrupts()`.  ISR activations (edge captures) may be interleaved anywhere
around these instructions; while interrupts are disabled the hardware latches
the interrupt request and the ISR runs when `interrupts()` re-enables them.
-/

namespace Snap

/-- One instruction-granularity step: an ISR activation carrying its edge
event, or one of the operations of the critical section. -/
inductive MicroStep where
  | isr (e : IsrEvent)
  | noInterruptsOp
  | readFlagsOp
  | copyValueOp (i : Fin PINS_COUNT)
  | clearFlagsOp
  | interruptsOp
deriving DecidableEq

/-- State of the instruction-level model: the ISR-shared variables, the
interrupt-enable flag, the latched (pending) ISR activations, and the local
variables `flags` and `values` of `lookForChanges`. -/
@[ext]
structure SState where
  shared : Shared
  intEnabled : Bool
  pending : List IsrEvent
  flagsLocal : Nat
  valuesLocal : Fin PINS_COUNT → Nat

/-- Effect of one step.  An ISR activation runs `_handleChange` immediately
when interrupts are enabled, and is latched otherwise; `interrupts()` delivers
the latched activations in order.  The three kinds of critical-section
operations are the loads/stores of lines 110-115. -/
def exec1 (s : SState) : MicroStep → SState
  | .isr e =>
      if s.intEnabled then { s with shared := handleChangeS s.shared e }
      else { s with pending := s.pending ++ [e] }
  | .noInterruptsOp => { s with intEnabled := false }
  | .readFlagsOp => { s with flagsLocal := s.shared.changedFlags }
  | .copyValueOp i =>
      { s with valuesLocal := Function.update s.valuesLocal i (s.shared.currentValues i) }
  | .clearFlagsOp => { s with shared := { s.shared with changedFlags := 0 } }
  | .interruptsOp =>
      { s with intEnabled := true, pending := [],
               shared := s.pending.foldl handleChangeS s.shared }

/-- Execute a list of steps. -/
def exec (s : SState) (l : List MicroStep) : SState := l.foldl exec1 s

/-- Whether a step is an ISR activation. -/
def isIsr : MicroStep → Bool
  | .isr _ => true
  | _ => false

/-- The edge events of the ISR activations of a step list, in order. -/
def isrEventsOf (l : List MicroStep) : List IsrEvent :=
  l.filterMap fun st =>
    match st with
    | .isr e => some e
    | _ => Option.none

/-- The operations between `noInterrupts()` and `interrupts()`: the read of
`_changedFlags` (line 110), the `memcpy` of the 16 value slots (line 112),
and the store `_changedFlags = 0` (line 115). -/
def innerOps : List MicroStep :=
  [.readFlagsOp,
   .copyValueOp 0, .copyValueOp 1, .copyValueOp 2, .copyValueOp 3,
   .copyValueOp 4, .copyValueOp 5, .copyValueOp 6, .copyValueOp 7,
   .copyValueOp 8, .copyValueOp 9, .copyValueOp 10, .copyValueOp 11,
   .copyValueOp 12, .copyValueOp 13, .copyValueOp 14, .copyValueOp 15,
   .clearFlagsOp]

/-- A full interleaving of one snapshot with ISR activity: `pre` activations
while interrupts are still enabled, then `noInterrupts()`, then any list
`inner` of steps whose non-ISR part is exactly the critical-section body (ISR
activations at arbitrary positions inside it), then `interrupts()`, then
`post` activations. -/
def snapshotTrace (pre : List IsrEvent) (inner : List MicroStep)
    (post : List IsrEvent) : List MicroStep :=
  pre.map MicroStep.isr ++ MicroStep.noInterruptsOp :: inner
    ++ MicroStep.interruptsOp :: post.map MicroStep.isr

end Snap

-- Concrete instances used by witnesses.

/-- Concrete state for the C6 witness: channel 2 attached. -/
def c6State : MState :=
  attach3 initState 2 (Callback.user 1) PWMReceiver.any PWMReceiver.identity

/-- Concrete state for the C9 witness: channel 4 attached and dirty with
value 800. -/
def c9State : MState :=
  edge (attach3 initState 4 (Callback.user 2) PWMReceiver.any PWMReceiver.identity) 4 false 800

/-- Concrete shared state for the C10 witness. -/
def c10Shared : Shared :=
  { waveStarts := fun _ => 0, currentValues := fun _ => 0, changedFlags := 0 }

/-- Concrete starting state for the C1 witness: interrupts enabled, nothing
pending, channel 2 dirty with value 900. -/
def snapW0 : Snap.SState :=
  { shared := { waveStarts := fun _ => 0,
                currentValues := fun i => if i = 2 then 900 else 0,
                changedFlags := 8 },
    intEnabled := true, pending := [],
    flagsLocal := 0, valuesLocal := fun _ => 0 }

/-- ISR activity before the critical section for the C1 witness: a rising
edge on channel 5 at t=40. -/
def snapWPre : List IsrEvent := [⟨5, true, 40⟩]

/-- Critical-section interleaving for the C1 witness: a falling edge on
channel 5 fires right after the flag read and must be latched. -/
def snapWInner : List Snap.MicroStep :=
  [.readFlagsOp, .isr ⟨5, false, 70⟩,
   .copyValueOp 0, .copyValueOp 1, .copyValueOp 2, .copyValueOp 3,
   .copyValueOp 4, .copyValueOp 5, .copyValueOp 6, .copyValueOp 7,
   .copyValueOp 8, .copyValueOp 9, .copyValueOp 10, .copyValueOp 11,
   .copyValueOp 12, .copyValueOp 13, .copyValueOp 14, .copyValueOp 15,
   .clearFlagsOp]

/-- ISR activity after the critical section for the C1 witness. -/
def snapWPost : List IsrEvent := [⟨1, true, 95⟩]

/-!
## Helper lemmas
-/

/-- `2 << n` is the single bit at position `n + 1`. -/
theorem two_shiftLeft_eq_pow (n : Nat) : 2 <<< n = 2 ^ (n + 1) := by
  rw [Nat.shiftLeft_eq, Nat.pow_succ, Nat.mul_comm]

/-- Oring in channel `a`'s flag mask does not change the flag-test of a
different channel `b` (also across the 16-bit truncation of the store). -/
theorem or_mask_and_mask (flags a b : Nat) (hab : a ≠ b) (hf : flags < FLAGS_MOD) :
    ((flags ||| 2 <<< a) % FLAGS_MOD) &&& (2 <<< b) = flags &&& (2 <<< b) := by
  rw [two_shiftLeft_eq_pow, two_shiftLeft_eq_pow]
  refine Nat.eq_of_testBit_eq fun j => ?_
  rw [Nat.testBit_land, Nat.testBit_land]
  by_cases hj : b + 1 = j
  · subst hj
    rw [show (FLAGS_MOD : Nat) = 2 ^ 16 from rfl, Nat.testBit_mod_two_pow, Nat.testBit_lor,
      Nat.testBit_two_pow_of_ne (show a + 1 ≠ b + 1 by omega)]
    by_cases hb : b + 1 < 16
    · simp [hb]
    · have h1 : flags.testBit (b + 1) = false :=
        Nat.testBit_lt_two_pow
          (lt_of_lt_of_le hf (Nat.pow_le_pow_right (by norm_num) (by omega)))
      simp [hb, h1]
  · rw [Nat.testBit_two_pow_of_ne hj]
    simp

/-- Channel 15's flag test is identically zero on a 16-bit flag register:
`flags & (2 << 15)` vanishes whenever `flags` fits in 16 bits. -/
theorem and_mask15_eq_zero (flags : Nat) (hf : flags < FLAGS_MOD) :
    flags &&& (2 <<< 15) = 0 := by
  rw [two_shiftLeft_eq_pow, Nat.and_two_pow, Nat.testBit_lt_two_pow hf]
  rfl

/-- Channel 15's flag-set is a no-op: the `|=` of `2 << 15` followed by the
16-bit truncation of the store leaves the register unchanged. -/
theorem or_mask15_mod (flags : Nat) (hf : flags < FLAGS_MOD) :
    (flags ||| 2 <<< 15) % FLAGS_MOD = flags := by
  rw [two_shiftLeft_eq_pow]
  refine Nat.eq_of_testBit_eq fun j => ?_
  rw [show (FLAGS_MOD : Nat) = 2 ^ 16 from rfl, Nat.testBit_mod_two_pow, Nat.testBit_lor]
  by_cases hj : j < 16
  · rw [Nat.testBit_two_pow_of_ne (show 16 ≠ j by omega)]
    simp [hj]
  · have h1 : flags.testBit j = false :=
      Nat.testBit_lt_two_pow
        (lt_of_lt_of_le hf (Nat.pow_le_pow_right (by norm_num) (by omega)))
    simp [hj, h1]

/-- The ISR keeps the flag register inside 16 bits. -/
theorem flags_lt_handleChangeS (s : Shared) (e : IsrEvent)
    (h : s.changedFlags < FLAGS_MOD) :
    (handleChangeS s e).changedFlags < FLAGS_MOD := by
  unfold handleChangeS
  split
  · exact h
  · exact Nat.mod_lt _ (by norm_num)

/-- Edge delivery keeps the flag register inside 16 bits. -/
theorem flags_lt_edge (s : MState) (p : Fin PINS_COUNT) (l : Bool) (t : Nat)
    (h : s.shared.changedFlags < FLAGS_MOD) :
    (edge s p l t).shared.changedFlags < FLAGS_MOD := by
  unfold edge
  split
  · exact flags_lt_handleChangeS _ _ h
  · exact h

/-- A poll keeps the flag register inside 16 bits. -/
theorem flags_lt_lookForChanges (s : MState)
    (h : s.shared.changedFlags < FLAGS_MOD) :
    (lookForChanges s).1.shared.changedFlags < FLAGS_MOD := by
  unfold lookForChanges
  split
  · norm_num
  · exact h

/-- Any run of edges and polls keeps the flag register inside 16 bits. -/
theorem flags_lt_foldl (evs : List Ev) (sl : MState × List Invocation)
    (h : sl.1.shared.changedFlags < FLAGS_MOD) :
    (evs.foldl machineStep sl).1.shared.changedFlags < FLAGS_MOD := by
  induction evs generalizing sl with
  | nil => exact h
  | cons e evs ih =>
    apply ih
    cases e with
    | edgeEv p l t => exact flags_lt_edge _ _ _ _ h
    | pollEv => exact flags_lt_lookForChanges _ h

/-- Characterisation of the per-pin dispatch result. -/
theorem mem_dispatchPin {flags : Nat} {values : Fin PINS_COUNT → Nat} {s : MState}
    {p : Fin PINS_COUNT} {inv : Invocation} :
    inv ∈ dispatchPin flags values s p ↔
      flags &&& (2 <<< p.val) ≠ 0 ∧ s.filterFuncs p (values p) = true ∧
        inv = ⟨p, s.onChangeFuncs p, s.transformFuncs p (values p)⟩ := by
  unfold dispatchPin
  by_cases h1 : flags &&& (2 <<< p.val) ≠ 0
  · by_cases h2 : s.filterFuncs p (values p) = true
    · simp [h1, h2]
    · simp [h1, h2]
  · simp [h1]

/-- Every invocation of a poll comes from a dirty pin, passed that pin's
filter, calls that pin's callback, and carries that pin's transformed
current value. -/
theorem mem_lookForChanges {s : MState} {inv : Invocation}
    (h : inv ∈ (lookForChanges s).2) :
    s.shared.changedFlags &&& (2 <<< inv.pin.val) ≠ 0 ∧
      s.filterFuncs inv.pin (s.shared.currentValues inv.pin) = true ∧
      inv.callback = s.onChangeFuncs inv.pin ∧
      inv.value = s.transformFuncs inv.pin (s.shared.currentValues inv.pin) := by
  unfold lookForChanges at h
  split at h
  · simp only [List.mem_flatMap] at h
    obtain ⟨a, -, ha⟩ := h
    rw [mem_dispatchPin] at ha
    obtain ⟨h1, h2, h3⟩ := ha
    subst h3
    exact ⟨h1, h2, rfl, rfl⟩
  · simp at h

/-!
## Claim theorems
-/

/-- C3: After `attach(channel=3, onChange=store, filter = (x > 1000),
transform = identity)`: a pulse of duration 500 on channel 3 followed by
`lookForChanges()` invokes no callback (500 ≤ 1000 is rejected by the filter),
and a subsequent pulse of duration 2000 on channel 3 followed by
`lookForChanges()` invokes `store` exactly once with the value 2000. -/
theorem c3_end_to_end :
    (run c3State c3EvsFirst).2 = [] ∧
    (run c3State c3EvsAll).2 = [⟨3, Callback.user 0, 2000⟩] := by
  decide

/-- C2, evaluated at the failing input: with channel 15 attached
(accept-all filter, identity transform) and two completed pulses on it
(durations 100 and 300), the poll performs no invocation at all — because
`_changedFlags |= 2 << 15` truncates to a no-op in the 16-bit register —
whereas the claim requires exactly one invocation carrying the second
duration 300. -/
theorem c2_channel15_no_callback : (run c2State c2Evs).2 = [] := by
  decide

/-- C5, evaluated at the failing input: a falling edge on channel 15 stores
the duration into the channel's value slot but leaves the flag register
unchanged (still 0) — the dirty bit the claim requires is never set, since
`2 << 15` truncates to 0 in the 16-bit flag register. -/
theorem c5_channel15_flag_not_set :
    (edge c5State 15 false 500).shared.currentValues 15 = 500 ∧
    (edge c5State 15 false 500).shared.changedFlags = 0 ∧
    c5State.shared.changedFlags = 0 := by
  decide

/-- C8: `attach(pin, onChange)` installs the accept-all filter and the
identity transform; `attach(pin, onChange, filter)` installs the identity
transform; the full overload installs exactly the given triplet and enables
the pin's interrupt, and attaching again overwrites the prior configuration
completely (re-attach is the same as a single attach with the new
arguments). -/
theorem attach_defaults_and_overwrite (s : MState) (p : Fin PINS_COUNT)
    (cb cb' : Callback) (f f' : Nat → Bool) (tr tr' : Nat → Nat) :
    attach1 s p cb = attach3 s p cb PWMReceiver.any PWMReceiver.identity ∧
    attach2 s p cb f = attach3 s p cb f PWMReceiver.identity ∧
    (attach3 s p cb f tr).onChangeFuncs p = cb ∧
    (attach3 s p cb f tr).filterFuncs p = f ∧
    (attach3 s p cb f tr).transformFuncs p = tr ∧
    (attach3 s p cb f tr).interruptEnabled p = true ∧
    attach3 (attach3 s p cb f tr) p cb' f' tr' = attach3 s p cb' f' tr' := by
  refine ⟨rfl, rfl, ?_, ?_, ?_, ?_, ?_⟩
  · simp [attach3]
  · simp [attach3]
  · simp [attach3]
  · simp [attach3]
  · simp [attach3, Function.update_idem]

/-- C10: edge capture cannot fail — for rising-edge time `ts` and
falling-edge time `tf` (as 32-bit clock readings), including the wraparound
case `tf < ts`, the duration stored by the falling edge is exactly
`(tf - ts) mod 2^32`, the unsigned wraparound value, with no correction or
error. -/
theorem duration_wraps_mod_2_32 (s : Shared) (pin : Fin PINS_COUNT) (ts tf : Nat)
    (hs : ts < ULONG_MOD) (hf : tf < ULONG_MOD) :
    (handleChangeS (handleChangeS s ⟨pin, true, ts⟩) ⟨pin, false, tf⟩).currentValues pin
      = (((tf : Int) - (ts : Int)) % (2 ^ 32 : Int)).toNat := by
  simp only [handleChangeS, if_pos, if_neg, Bool.false_eq_true, not_false_iff, if_true]
  simp only [Function.update_same]
  have hM : (ULONG_MOD : Nat) = 4294967296 := by norm_num
  rw [hM] at hs hf ⊢
  rw [Nat.mod_eq_of_lt hs, Nat.mod_eq_of_lt hf, Nat.mod_eq_of_lt hs]
  have h32 : ((2 : Int) ^ 32) = 4294967296 := by norm_num
  rw [h32]
  omega

/-- Witness for C10 at a wraparound input: rising at t=7, falling at t=3. -/
theorem duration_wraps_mod_2_32_witness :
    7 < ULONG_MOD ∧ 3 < ULONG_MOD ∧
    (handleChangeS (handleChangeS c10Shared ⟨2, true, 7⟩) ⟨2, false, 3⟩).currentValues 2
      = (((3 : Int) - (7 : Int)) % (2 ^ 32 : Int)).toNat := by
  refine ⟨by norm_num, by norm_num, ?_⟩
  exact duration_wraps_mod_2_32 c10Shared 2 7 3 (by norm_num) (by norm_num)

/-- In any run of edges and polls, no invocation is ever performed for
pin 15 (given the 16-bit flag invariant and a pin-15-free accumulated log). -/
theorem no_pin15_foldl (evs : List Ev) (sl : MState × List Invocation)
    (hf : sl.1.shared.changedFlags < FLAGS_MOD)
    (hlog : ∀ inv ∈ sl.2, inv.pin ≠ 15) :
    ∀ inv ∈ (evs.foldl machineStep sl).2, inv.pin ≠ 15 := by
  induction evs generalizing sl with
  | nil => exact hlog
  | cons e evs ih =>
    cases e with
    | edgeEv p l t =>
      exact ih (machineStep sl (.edgeEv p l t)) (flags_lt_edge _ _ _ _ hf) hlog
    | pollEv =>
      refine ih (machineStep sl .pollEv) (flags_lt_lookForChanges _ hf) ?_
      intro inv hinv
      simp only [machineStep, List.mem_append] at hinv
      rcases hinv with h | h
      · exact hlog inv h
      · intro heq
        have h1 := (mem_lookForChanges h).1
        rw [heq] at h1
        exact h1 (and_mask15_eq_zero _ hf)

/-- C4: the dirty-flag bit for channel `c` sits at bit position `c + 1` of
the 16-bit flag register (the shift is `2 << c`, not `1 << c`); consequently
for channel 15 both the flag-set of a falling edge and the flag-test of the
dispatch loop evaluate to zero, so over every sequence of edges and polls a
completed pulse on channel 15 never marks the channel dirty and channel 15's
pipeline is never invoked by `lookForChanges()`. -/
theorem channel15_never_dispatched (s : MState) (evs : List Ev) (t : Nat)
    (hf : s.shared.changedFlags < FLAGS_MOD) :
    (∀ c : Fin PINS_COUNT, c.val < 15 → 2 <<< c.val = 2 ^ (c.val + 1)) ∧
    (2 <<< 15) % FLAGS_MOD = 0 ∧
    (run s evs).1.shared.changedFlags &&& (2 <<< 15) = 0 ∧
    (edge (run s evs).1 15 false t).shared.changedFlags
      = (run s evs).1.shared.changedFlags ∧
    (∀ inv ∈ (run s evs).2, inv.pin ≠ 15) := by
  have hrun : (run s evs).1.shared.changedFlags < FLAGS_MOD :=
    flags_lt_foldl evs (s, []) hf
  refine ⟨by decide, by decide, and_mask15_eq_zero _ hrun, ?_, ?_⟩
  · unfold edge
    split
    · show ((run s evs).1.shared.changedFlags ||| (2 <<< (15 : Fin PINS_COUNT).val))
        % FLAGS_MOD = _
      exact or_mask15_mod _ hrun
    · rfl
  · exact no_pin15_foldl evs (s, []) hf (by simp)

/-- Witness for C4: a complete pulse on attached channel 15 followed by a
poll, then another falling edge. -/
theorem channel15_never_dispatched_witness :
    c4State.shared.changedFlags < FLAGS_MOD ∧
    ((∀ c : Fin PINS_COUNT, c.val < 15 → 2 <<< c.val = 2 ^ (c.val + 1)) ∧
     (2 <<< 15) % FLAGS_MOD = 0 ∧
     (run c4State c4Evs).1.shared.changedFlags &&& (2 <<< 15) = 0 ∧
     (edge (run c4State c4Evs).1 15 false 999).shared.changedFlags
       = (run c4State c4Evs).1.shared.changedFlags ∧
     (∀ inv ∈ (run c4State c4Evs).2, inv.pin ≠ 15)) := by
  exact ⟨by decide, channel15_never_dispatched c4State c4Evs 999 (by decide)⟩

/-- Two dispatches agree at pin `b` when the flag-test, the value slot and
the registry entries of `b` agree. -/
theorem dispatchPin_congr {f1 f2 : Nat} {v1 v2 : Fin PINS_COUNT → Nat}
    {s1 s2 : MState} {b : Fin PINS_COUNT}
    (hf : f1 &&& (2 <<< b.val) = f2 &&& (2 <<< b.val)) (hv : v1 b = v2 b)
    (ho : s1.onChangeFuncs b = s2.onChangeFuncs b)
    (hfi : s1.filterFuncs b = s2.filterFuncs b)
    (ht : s1.transformFuncs b = s2.transformFuncs b) :
    dispatchPin f1 v1 s1 b = dispatchPin f2 v2 s2 b := by
  unfold dispatchPin
  rw [hf, hv, ho, hfi, ht]

/-- C6: handling any edge on channel `a` leaves channel `b`'s wave-start
timestamp, value slot, dirty bit and registry triplet unchanged for every
`b ≠ a`, and therefore leaves `b`'s per-pin dispatch outcome unchanged in any
subsequent `lookForChanges()`. -/
theorem edge_isolation (s : MState) (a b : Fin PINS_COUNT) (hab : a ≠ b)
    (l : Bool) (t : Nat) (hflags : s.shared.changedFlags < FLAGS_MOD) :
    (edge s a l t).shared.waveStarts b = s.shared.waveStarts b ∧
    (edge s a l t).shared.currentValues b = s.shared.currentValues b ∧
    (edge s a l t).shared.changedFlags &&& (2 <<< b.val)
      = s.shared.changedFlags &&& (2 <<< b.val) ∧
    (edge s a l t).onChangeFuncs = s.onChangeFuncs ∧
    (edge s a l t).filterFuncs = s.filterFuncs ∧
    (edge s a l t).transformFuncs = s.transformFuncs ∧
    dispatchPin (edge s a l t).shared.changedFlags
        (edge s a l t).shared.currentValues (edge s a l t) b
      = dispatchPin s.shared.changedFlags s.shared.currentValues s b := by
  have hba : b ≠ a := fun h => hab h.symm
  have hvalne : a.val ≠ b.val := fun h => hab (Fin.val_injective h)
  unfold edge
  split
  · cases l with
    | true =>
      have h1 : (handleChangeS s.shared ⟨a, true, t⟩).waveStarts b
          = s.shared.waveStarts b := by
        simp [handleChangeS, Function.update_noteq hba]
      have h2 : (handleChangeS s.shared ⟨a, true, t⟩).currentValues b
          = s.shared.currentValues b := by
        simp [handleChangeS]
      have h3 : (handleChangeS s.shared ⟨a, true, t⟩).changedFlags
          = s.shared.changedFlags := by
        simp [handleChangeS]
      refine ⟨h1, h2, by rw [h3], rfl, rfl, rfl, ?_⟩
      exact dispatchPin_congr (by rw [h3]) h2 rfl rfl rfl
    | false =>
      have h1 : (handleChangeS s.shared ⟨a, false, t⟩).waveStarts b
          = s.shared.waveStarts b := by
        simp [handleChangeS]
      have h2 : (handleChangeS s.shared ⟨a, false, t⟩).currentValues b
          = s.shared.currentValues b := by
        simp [handleChangeS, Function.update_noteq hba]
      have h3 : (handleChangeS s.shared ⟨a, false, t⟩).changedFlags &&& (2 <<< b.val)
          = s.shared.changedFlags &&& (2 <<< b.val) := by
        simp only [handleChangeS, Bool.false_eq_true, if_false]
        exact or_mask_and_mask _ _ _ hvalne hflags
      refine ⟨h1, h2, h3, rfl, rfl, rfl, ?_⟩
      exact dispatchPin_congr h3 h2 rfl rfl rfl
  · exact ⟨rfl, rfl, rfl, rfl, rfl, rfl, rfl⟩

/-- Witness for C6: a falling edge on channel 2 does not disturb channel 5. -/
theorem edge_isolation_witness :
    (2 : Fin PINS_COUNT) ≠ 5 ∧ c6State.shared.changedFlags < FLAGS_MOD ∧
    ((edge c6State 2 false 300).shared.waveStarts 5 = c6State.shared.waveStarts 5 ∧
     (edge c6State 2 false 300).shared.currentValues 5 = c6State.shared.currentValues 5 ∧
     (edge c6State 2 false 300).shared.changedFlags &&& (2 <<< (5 : Fin PINS_COUNT).val)
       = c6State.shared.changedFlags &&& (2 <<< (5 : Fin PINS_COUNT).val) ∧
     (edge c6State 2 false 300).onChangeFuncs = c6State.onChangeFuncs ∧
     (edge c6State 2 false 300).filterFuncs = c6State.filterFuncs ∧
     (edge c6State 2 false 300).transformFuncs = c6State.transformFuncs ∧
     dispatchPin (edge c6State 2 false 300).shared.changedFlags
         (edge c6State 2 false 300).shared.currentValues (edge c6State 2 false 300) 5
       = dispatchPin c6State.shared.changedFlags c6State.shared.currentValues c6State 5) := by
  exact ⟨by decide, by decide, edge_isolation c6State 2 5 (by decide) false 300 (by decide)⟩

/-- C7: `detach(channel)` disables edge notifications for the channel and
resets its triplet to the default (filter = reject-all, transform = identity,
callback = no-op); after `detach`, a further rising/falling pair on the
channel followed by `lookForChanges()` performs no invocation for that
channel at all (in particular the previously attached callback is never
invoked; an at-most-one stale dirty bit resolves through the reject-all
default pipeline without invoking any user callback). -/
theorem detach_resets_and_silences (s : MState) (p : Fin PINS_COUNT) (t1 t2 : Nat) :
    (detach s p).filterFuncs p = PWMReceiver.none ∧
    (detach s p).transformFuncs p = PWMReceiver.identity ∧
    (detach s p).onChangeFuncs p = Callback.void ∧
    (detach s p).interruptEnabled p = false ∧
    (∀ inv ∈ (lookForChanges (edge (edge (detach s p) p true t1) p false t2)).2,
      inv.pin ≠ p) := by
  have h1 : (detach s p).interruptEnabled p = false := by
    simp [detach]
  have hedge : ∀ (l : Bool) (t : Nat), edge (detach s p) p l t = detach s p := by
    intro l t
    unfold edge
    rw [h1]
    simp
  rw [hedge, hedge]
  refine ⟨by simp [detach], by simp [detach], by simp [detach], h1, ?_⟩
  intro inv hinv heq
  have h2 := (mem_lookForChanges hinv).2.1
  rw [heq] at h2
  have h3 : (detach s p).filterFuncs p = PWMReceiver.none := by simp [detach]
  rw [h3] at h2
  simp [PWMReceiver.none] at h2

/-- Witness for C7 at concrete inputs (channel 6 of a freshly attached and
then detached receiver). -/
theorem detach_resets_and_silences_witness :
    (detach initState 6).filterFuncs 6 = PWMReceiver.none ∧
    (detach initState 6).transformFuncs 6 = PWMReceiver.identity ∧
    (detach initState 6).onChangeFuncs 6 = Callback.void ∧
    (detach initState 6).interruptEnabled 6 = false ∧
    (∀ inv ∈ (lookForChanges (edge (edge (detach initState 6) 6 true 10) 6 false 20)).2,
      inv.pin ≠ 6) :=
  detach_resets_and_silences initState 6 10 20

/-- Ascending-pin ordering of a dispatch pass over an ascending pin list. -/
theorem pairwise_pin_flatMap (flags : Nat) (values : Fin PINS_COUNT → Nat)
    (s : MState) (l : List (Fin PINS_COUNT)) (hl : l.Pairwise (· < ·)) :
    ((l.flatMap (dispatchPin flags values s)).map Invocation.pin).Pairwise (· < ·) := by
  induction l with
  | nil => simp
  | cons a l ih =>
    rw [List.pairwise_cons] at hl
    obtain ⟨ha, hl⟩ := hl
    rw [List.flatMap_cons, List.map_append, List.pairwise_append]
    refine ⟨?_, ih hl, ?_⟩
    · unfold dispatchPin
      split
      · split
        · simp
        · simp
      · simp
    · intro x hx y hy
      simp only [List.mem_map] at hx hy
      obtain ⟨ix, hix, hxe⟩ := hx
      obtain ⟨iy, hiy, hye⟩ := hy
      rw [mem_dispatchPin] at hix
      obtain ⟨-, -, hixe⟩ := hix
      rw [List.mem_flatMap] at hiy
      obtain ⟨b, hb, hiyb⟩ := hiy
      rw [mem_dispatchPin] at hiyb
      obtain ⟨-, -, hiybe⟩ := hiyb
      subst hxe hye hixe hiybe
      exact ha b hb

/-- C9: within one `lookForChanges()` cycle, the dispatched pins are in
strictly ascending order (hence no pin's pipeline runs more than once per
cycle); every performed invocation comes from a dirty pin whose filter
accepted the value, calls that pin's callback, and carries that pin's
transformed value (so transform and callback run only behind a passed
filter); and conversely every dirty pin whose filter accepts is dispatched
exactly in this way. -/
theorem dispatch_order_and_pipeline (s : MState) :
    ((lookForChanges s).2.map Invocation.pin).Pairwise (· < ·) ∧
    ((lookForChanges s).2.map Invocation.pin).Nodup ∧
    (∀ inv ∈ (lookForChanges s).2,
        s.shared.changedFlags &&& (2 <<< inv.pin.val) ≠ 0 ∧
        s.filterFuncs inv.pin (s.shared.currentValues inv.pin) = true ∧
        inv.callback = s.onChangeFuncs inv.pin ∧
        inv.value = s.transformFuncs inv.pin (s.shared.currentValues inv.pin)) ∧
    (∀ p : Fin PINS_COUNT, s.shared.changedFlags &&& (2 <<< p.val) ≠ 0 →
        s.filterFuncs p (s.shared.currentValues p) = true →
        (⟨p, s.onChangeFuncs p, s.transformFuncs p (s.shared.currentValues p)⟩ : Invocation)
          ∈ (lookForChanges s).2) := by
  have hpair : ((lookForChanges s).2.map Invocation.pin).Pairwise (· < ·) := by
    unfold lookForChanges
    split
    · exact pairwise_pin_flatMap _ _ _ _ (List.pairwise_lt_finRange _)
    · simp
  refine ⟨hpair, hpair.imp ne_of_lt, fun inv h => mem_lookForChanges h, ?_⟩
  intro p h1 h2
  unfold lookForChanges
  split
  · show _ ∈ (List.finRange PINS_COUNT).flatMap
      (dispatchPin s.shared.changedFlags s.shared.currentValues s)
    rw [List.mem_flatMap]
    exact ⟨p, List.mem_finRange p, mem_dispatchPin.mpr ⟨h1, h2, rfl⟩⟩
  · rename_i hz
    rw [not_ne_iff] at hz
    rw [hz, Nat.zero_and] at h1
    exact absurd rfl h1

/-- Witness for C9 at a concrete dirty state. -/
theorem dispatch_order_and_pipeline_witness :
    ((lookForChanges c9State).2.map Invocation.pin).Pairwise (· < ·) ∧
    ((lookForChanges c9State).2.map Invocation.pin).Nodup ∧
    (∀ inv ∈ (lookForChanges c9State).2,
        c9State.shared.changedFlags &&& (2 <<< inv.pin.val) ≠ 0 ∧
        c9State.filterFuncs inv.pin (c9State.shared.currentValues inv.pin) = true ∧
        inv.callback = c9State.onChangeFuncs inv.pin ∧
        inv.value = c9State.transformFuncs inv.pin (c9State.shared.currentValues inv.pin)) ∧
    (∀ p : Fin PINS_COUNT, c9State.shared.changedFlags &&& (2 <<< p.val) ≠ 0 →
        c9State.filterFuncs p (c9State.shared.currentValues p) = true →
        (⟨p, c9State.onChangeFuncs p,
            c9State.transformFuncs p (c9State.shared.currentValues p)⟩ : Invocation)
          ∈ (lookForChanges c9State).2) :=
  dispatch_order_and_pipeline c9State

namespace Snap

/-- Executing an appended step list is sequential execution. -/
theorem exec_append (s : SState) (l1 l2 : List MicroStep) :
    exec s (l1 ++ l2) = exec (exec s l1) l2 :=
  List.foldl_append _ _ _ _

/-- Executing a cons peels one step. -/
theorem exec_cons (s : SState) (st : MicroStep) (l : List MicroStep) :
    exec s (st :: l) = exec (exec1 s st) l := rfl

/-- While interrupts are enabled, a burst of ISR activations just folds
`_handleChange` over the shared variables. -/
theorem exec_isr_enabled (evs : List IsrEvent) :
    ∀ (s : SState), s.intEnabled = true →
      exec s (evs.map MicroStep.isr)
        = { s with shared := evs.foldl handleChangeS s.shared } := by
  induction evs with
  | nil =>
    intro s _
    rfl
  | cons e evs ih =>
    intro s h
    have h1 : exec1 s (.isr e) = { s with shared := handleChangeS s.shared e } := by
      simp [exec1, h]
    rw [show ((e :: evs).map MicroStep.isr) = MicroStep.isr e :: evs.map MicroStep.isr from rfl,
      exec_cons, h1, ih { s with shared := handleChangeS s.shared e } h]
    rfl

/-- The local variables and the shared state evolve independently of the
pending list, over steps that are neither ISR activations nor
`interrupts()`. -/
theorem exec_pending_irrel (l : List MicroStep) :
    ∀ (s : SState) (q : List IsrEvent),
      (∀ op ∈ l, isIsr op = false ∧ op ≠ MicroStep.interruptsOp) →
      exec { s with pending := q } l = { exec s l with pending := q } := by
  induction l with
  | nil =>
    intro s q _
    rfl
  | cons op l ih =>
    intro s q h
    have hl : ∀ o ∈ l, isIsr o = false ∧ o ≠ MicroStep.interruptsOp :=
      fun o ho => h o (List.mem_cons_of_mem _ ho)
    cases op with
    | isr e => exact absurd (h _ (List.mem_cons_self _ _)).1 (by simp [isIsr])
    | interruptsOp => exact absurd rfl (h _ (List.mem_cons_self _ _)).2
    | noInterruptsOp => exact ih (exec1 s MicroStep.noInterruptsOp) q hl
    | readFlagsOp => exact ih (exec1 s MicroStep.readFlagsOp) q hl
    | copyValueOp i => exact ih (exec1 s (MicroStep.copyValueOp i)) q hl
    | clearFlagsOp => exact ih (exec1 s MicroStep.clearFlagsOp) q hl

/-- While interrupts are disabled (and never re-enabled inside `l`), ISR
activations interleaved anywhere in `l` do not touch the shared variables or
the locals: execution equals executing the non-ISR steps alone, with the ISR
events appended to the pending list in order. -/
theorem exec_disabled (l : List MicroStep) :
    ∀ (s : SState), s.intEnabled = false → MicroStep.interruptsOp ∉ l →
      exec s l = { exec s (l.filter (fun st => !isIsr st)) with
                   pending := s.pending ++ isrEventsOf l } := by
  induction l with
  | nil =>
    intro s _ _
    simp [exec, isrEventsOf]
  | cons op l ih =>
    intro s h1 h2
    have h2l : MicroStep.interruptsOp ∉ l := fun hm => h2 (List.mem_cons_of_mem _ hm)
    cases op with
    | isr e =>
      have he1 : exec1 s (.isr e) = { s with pending := s.pending ++ [e] } := by
        simp [exec1, h1]
      have hcond : ∀ o ∈ l.filter (fun st => !isIsr st),
          isIsr o = false ∧ o ≠ MicroStep.interruptsOp := by
        intro o ho
        rw [List.mem_filter] at ho
        exact ⟨by simpa using ho.2, fun heq => h2l (heq ▸ ho.1)⟩
      rw [exec_cons, he1, ih { s with pending := s.pending ++ [e] } h1 h2l,
        exec_pending_irrel (l.filter (fun st => !isIsr st)) s (s.pending ++ [e]) hcond]
      simp [isrEventsOf, isIsr, List.filterMap_cons]
    | interruptsOp => exact absurd (List.mem_cons_self _ _) h2
    | noInterruptsOp => exact ih (exec1 s MicroStep.noInterruptsOp) rfl h2l
    | readFlagsOp => exact ih (exec1 s MicroStep.readFlagsOp) h1 h2l
    | copyValueOp i => exact ih (exec1 s (MicroStep.copyValueOp i)) h1 h2l
    | clearFlagsOp => exact ih (exec1 s MicroStep.clearFlagsOp) h1 h2l

/-- Executing the critical-section body on an undisturbed state: the flag
register is read into `flags`, all 16 value slots are copied into `values`,
and the flag register is cleared — all against the same shared state. -/
theorem exec_innerOps (s : SState) :
    exec s innerOps =
      { s with flagsLocal := s.shared.changedFlags,
               valuesLocal := fun i => s.shared.currentValues i,
               shared := { s.shared with changedFlags := 0 } } := by
  simp only [innerOps, exec, List.foldl_cons, List.foldl_nil, exec1]
  refine SState.ext rfl rfl rfl rfl ?_
  funext i
  fin_cases i <;> rfl

/-- `interrupts()` followed by enabled ISR activations: the pending events
are delivered in order, then the later activations run, all on the shared
state; the locals survive untouched. -/
theorem exec_interrupts_then_isrs (s : SState) (post : List IsrEvent) :
    exec s (MicroStep.interruptsOp :: post.map MicroStep.isr)
      = { s with
            intEnabled := true,
            pending := [],
            shared := post.foldl handleChangeS (s.pending.foldl handleChangeS s.shared) } := by
  have h1 : exec1 s MicroStep.interruptsOp
      = { s with
            intEnabled := true,
            pending := [],
            shared := s.pending.foldl handleChangeS s.shared } := rfl
  rw [exec_cons, h1,
    exec_isr_enabled post
      { s with
          intEnabled := true,
          pending := [],
          shared := s.pending.foldl handleChangeS s.shared } rfl]

end Snap

/-- C1: for every interleaving of ISR edge captures with the critical section
of one `lookForChanges()` call — any ISR activity before `noInterrupts()`, at
arbitrary positions between the individual loads/stores of the snapshot, and
after `interrupts()` — the `(flags, values)` pair copied by the snapshot is
consistent as of a single instant, namely the shared state at the moment
interrupts were disabled: the copied flag register and all 16 copied values
are exactly that state's, and the flag register is cleared from exactly that
state, with the ISR activity masked during the copy delivered afterwards onto
the cleared register (so no value is copied without its flag and no flag is
cleared without its value having been copied). -/
theorem snapshot_atomic (pre : List IsrEvent) (inner : List Snap.MicroStep)
    (post : List IsrEvent) (s0 : Snap.SState)
    (hen : s0.intEnabled = true) (hpend : s0.pending = [])
    (hinner : inner.filter (fun st => !Snap.isIsr st) = Snap.innerOps) :
    (Snap.exec s0 (Snap.snapshotTrace pre inner post)).flagsLocal
        = (pre.foldl handleChangeS s0.shared).changedFlags ∧
    (∀ i, (Snap.exec s0 (Snap.snapshotTrace pre inner post)).valuesLocal i
        = (pre.foldl handleChangeS s0.shared).currentValues i) ∧
    (Snap.exec s0 (Snap.snapshotTrace pre inner post)).shared
        = post.foldl handleChangeS
            ((Snap.isrEventsOf inner).foldl handleChangeS
              { pre.foldl handleChangeS s0.shared with changedFlags := 0 }) ∧
    (Snap.exec s0 (Snap.snapshotTrace pre inner post)).intEnabled = true ∧
    (Snap.exec s0 (Snap.snapshotTrace pre inner post)).pending = [] := by
  have hnoe : Snap.MicroStep.interruptsOp ∉ inner := by
    intro hm
    have hmem : Snap.MicroStep.interruptsOp ∈ inner.filter (fun st => !Snap.isIsr st) :=
      List.mem_filter.mpr ⟨hm, by simp [Snap.isIsr]⟩
    rw [hinner] at hmem
    exact absurd hmem (by decide)
  have hfinal : Snap.exec s0 (Snap.snapshotTrace pre inner post) =
      { shared := post.foldl handleChangeS
          ((Snap.isrEventsOf inner).foldl handleChangeS
            { pre.foldl handleChangeS s0.shared with changedFlags := 0 }),
        intEnabled := true,
        pending := [],
        flagsLocal := (pre.foldl handleChangeS s0.shared).changedFlags,
        valuesLocal := fun i => (pre.foldl handleChangeS s0.shared).currentValues i } := by
    unfold Snap.snapshotTrace
    rw [Snap.exec_append, Snap.exec_interrupts_then_isrs, Snap.exec_append,
      Snap.exec_isr_enabled pre s0 hen, Snap.exec_cons,
      Snap.exec_disabled inner
        (Snap.exec1 { s0 with shared := pre.foldl handleChangeS s0.shared }
          Snap.MicroStep.noInterruptsOp) rfl hnoe,
      hinner, Snap.exec_innerOps]
    simp only [Snap.exec1, hpend, List.nil_append]
  refine ⟨?_, ?_, ?_, ?_, ?_⟩
  · rw [hfinal]
  · intro i
    rw [hfinal]
  · rw [hfinal]
  · rw [hfinal]
  · rw [hfinal]

/-- Witness for C1: a concrete interleaving in which a rising edge on
channel 5 precedes the snapshot, a falling edge on channel 5 fires between
the flag read and the first value copy (and is latched), and a rising edge
on channel 1 follows `interrupts()`. -/
theorem snapshot_atomic_witness :
    snapW0.intEnabled = true ∧ snapW0.pending = [] ∧
    snapWInner.filter (fun st => !Snap.isIsr st) = Snap.innerOps ∧
    ((Snap.exec snapW0 (Snap.snapshotTrace snapWPre snapWInner snapWPost)).flagsLocal
        = (snapWPre.foldl handleChangeS snapW0.shared).changedFlags ∧
     (∀ i, (Snap.exec snapW0 (Snap.snapshotTrace snapWPre snapWInner snapWPost)).valuesLocal i
        = (snapWPre.foldl handleChangeS snapW0.shared).currentValues i) ∧
     (Snap.exec snapW0 (Snap.snapshotTrace snapWPre snapWInner snapWPost)).shared
        = snapWPost.foldl handleChangeS
            ((Snap.isrEventsOf snapWInner).foldl handleChangeS
              { snapWPre.foldl handleChangeS snapW0.shared with changedFlags := 0 }) ∧
     (Snap.exec snapW0 (Snap.snapshotTrace snapWPre snapWInner snapWPost)).intEnabled = true ∧
     (Snap.exec snapW0 (Snap.snapshotTrace snapWPre snapWInner snapWPost)).pending = []) :=
  ⟨rfl, rfl, by decide,
    snapshot_atomic snapWPre snapWInner snapWPost snapW0 rfl rfl (by decide)⟩
